import Mathlib

/-!
Shallow embedding of the core services of the AI-Usage desktop application
(src/src-tauri/src): the scheduler's per-account session-failure state
machine and rate gates (services/scheduler.rs, commands/scheduler.rs), the
notification deduplication engine (services/notifications.rs), and the
history store's query/retention/stats logic (services/history.rs), together
with theorems checking the natural-language specification against them.

Modelling conventions: `u64`/`u32`/`usize` are `ℕ` (saturating subtraction
is `Nat` subtraction), `DateTime` values are `ℤ` seconds (or `ℕ` unix
millis where the code uses millis), `f64` utilizations are `ℚ` with the
`as u32` cast modelled as a saturating floor, `HashMap`s/`HashSet`s keyed
by strings are total functions with the code's `unwrap_or` defaults.
-/

/-- Does the character list start with `pat`? (helper for Rust `str::contains`). -/
def strHasPref : List Char → List Char → Bool
  | [], _ => true
  | _ :: _, [] => false
  | p :: ps, c :: cs => p == c && strHasPref ps cs

/-- Does the character list contain `pat` as a contiguous substring? -/
def strHasSub (pat : List Char) : List Char → Bool
  | [] => pat.isEmpty
  | c :: cs => strHasPref pat (c :: cs) || strHasSub pat cs

/-- Rust `str::contains(pat)` for string literals, via the character lists. -/
def strContainsSub (s pat : String) : Bool :=
  strHasSub pat.toList s.toList

/-- ProviderError from src/src-tauri/src/error.rs. -/
inductive ProviderError where
  | httpError (msg : String)
  | sessionExpired
  | cloudflareBlocked
  | rateLimited
  | parseError (msg : String)
  | missingCredentials (msg : String)
  | invalidCredentials (msg : String)
deriving DecidableEq

/-- The `thiserror` Display rendering of ProviderError (error.rs). -/
def ProviderError.render : ProviderError → String
  | .httpError m => "HTTP request failed: " ++ m
  | .sessionExpired => "Session expired - please update your credentials"
  | .cloudflareBlocked => "Access blocked by Cloudflare - try again later"
  | .rateLimited => "Rate limited - please wait before retrying"
  | .parseError m => "Invalid response format: " ++ m
  | .missingCredentials m => "Missing credentials for provider: " ++ m
  | .invalidCredentials m => "Invalid credentials: " ++ m

/-- AppError from src/src-tauri/src/error.rs. -/
inductive AppError where
  | provider (e : ProviderError)
  | store (msg : String)
  | serialization (msg : String)
  | tauri (msg : String)
  | rateLimit (msg : String)
deriving DecidableEq

/-- The `thiserror` Display rendering of AppError (error.rs). -/
def AppError.render : AppError → String
  | .provider e => "Provider error: " ++ e.render
  | .store m => "Store error: " ++ m
  | .serialization m => "Serialization error: " ++ m
  | .tauri m => "Tauri error: " ++ m
  | .rateLimit m => "Rate limited: " ++ m

/-- MAX_SESSION_ERRORS (scheduler.rs): consecutive session errors before pausing. -/
def maxSessionErrors : ℕ := 3

/-- MIN_REFRESH_INTERVAL_SECS (scheduler.rs): rate-limit floor in seconds. -/
def minRefreshIntervalSecs : ℕ := 10

/-- The session-error classifier of process_account_result (scheduler.rs
lines 481-484): substring match on the rendered error string. -/
def isSessionError (errorStr : String) : Bool :=
  strContainsSub errorStr "expired" || strContainsSub errorStr "401" ||
    strContainsSub errorStr "SessionExpired"

/-- The per-account session maps of SchedulerState (scheduler.rs):
`paused_accounts` and `session_error_counts` HashMaps, modelled as total
functions with the accessors' `unwrap_or(false)` / `unwrap_or(0)` defaults. -/
structure SessionMaps where
  pausedAccounts : String → Bool
  sessionErrorCounts : String → ℕ

/-- Fresh SchedulerState session maps (both HashMaps empty). -/
def SessionMaps.initial : SessionMaps :=
  ⟨fun _ => false, fun _ => 0⟩

/-- SchedulerState::is_account_paused. -/
def SessionMaps.isAccountPaused (s : SessionMaps) (accountId : String) : Bool :=
  s.pausedAccounts accountId

/-- SchedulerState::set_account_paused. -/
def SessionMaps.setAccountPaused (s : SessionMaps) (accountId : String) (p : Bool) :
    SessionMaps :=
  { s with pausedAccounts := fun a => if a = accountId then p else s.pausedAccounts a }

/-- SchedulerState::get_account_error_count. -/
def SessionMaps.getAccountErrorCount (s : SessionMaps) (accountId : String) : ℕ :=
  s.sessionErrorCounts accountId

/-- SchedulerState::increment_account_error_count: bumps the entry
(`or_insert(0)` then `+= 1`) and returns the new count with the new maps. -/
def SessionMaps.incrementAccountErrorCount (s : SessionMaps) (accountId : String) :
    ℕ × SessionMaps :=
  let c := s.sessionErrorCounts accountId + 1
  (c, { s with sessionErrorCounts := fun a => if a = accountId then c else s.sessionErrorCounts a })

/-- SchedulerState::reset_account_error_count. -/
def SessionMaps.resetAccountErrorCount (s : SessionMaps) (accountId : String) :
    SessionMaps :=
  { s with sessionErrorCounts := fun a => if a = accountId then 0 else s.sessionErrorCounts a }

/-- Outcome of fetch_account_usage for one account. -/
inductive FetchOutcome where
  | ok
  | err (e : AppError)

/-- Session-state effect of SchedulerService::process_account_result
(scheduler.rs lines 404-543), restricted to the paused/error-count maps;
the notification, history and event-emission effects of the function are
modelled separately. -/
def processAccountSession (st : SessionMaps) (accountId : String) :
    FetchOutcome → SessionMaps
  | .ok =>
    let errorCount := st.getAccountErrorCount accountId
    let wasPaused := st.isAccountPaused accountId
    if errorCount > 0 || wasPaused then
      (st.resetAccountErrorCount accountId).setAccountPaused accountId false
    else
      st
  | .err e =>
    let errorStr := e.render
    if isSessionError errorStr then
      let r := st.incrementAccountErrorCount accountId
      if r.1 ≥ maxSessionErrors then
        r.2.setAccountPaused accountId true
      else
        r.2
    else
      st

/-- SchedulerState::can_fetch (scheduler.rs lines 145-156); `last` and
`now` are unix milliseconds, `last = 0` meaning no fetch recorded yet. -/
def canFetch (last now : ℕ) : Bool :=
  if last = 0 then true
  else decide ((now - last) / 1000 ≥ minRefreshIntervalSecs)

/-- SchedulerService::force_refresh (scheduler.rs lines 269-279): an
explicit RateLimit error when the gate rejects, otherwise the fetch cycle
runs; the `true` payload records that fetch_and_emit was reached. -/
def forceRefresh (last now : ℕ) : Except AppError Bool :=
  if !canFetch last now then
    .error (.rateLimit "Please wait before refreshing again")
  else
    .ok true

/-- SchedulerService::set_interval (scheduler.rs lines 248-266): the stored
interval after the update. -/
def setIntervalEffective (secs : ℕ) : ℕ :=
  max secs minRefreshIntervalSecs

/-- Rust `f64 as u32` for our ℚ model of finite nonnegative doubles:
truncate toward zero and saturate into the u32 range. -/
def f64AsU32 (x : ℚ) : ℕ :=
  min (Rat.floor x).toNat (2 ^ 32 - 1)

/-- NotificationSettings as dereferenced by services/notifications.rs.
The snapshot of models.rs lacks the three DND fields that
notifications.rs reads, so they are included here as that code requires.
`dnd_start_time`/`dnd_end_time` are "%H:%M" strings parsed into
`NaiveTime`s; the parsed value is modelled as minutes since midnight,
with `none` covering both an absent string and a failed parse (both make
is_dnd_active return false). -/
structure NotificationSettings where
  enabled : Bool
  thresholds : List ℕ
  notifyOnReset : Bool
  notifyOnExpiry : Bool
  dndEnabled : Bool
  dndStartTime : Option ℕ
  dndEndTime : Option ℕ

/-- AppSettings (models.rs), restricted to the fields the embedded
services read (the theme/language/launch/providers fields are carried by
no claim). `refresh_interval` is the stored u32. -/
structure AppSettings where
  refreshMode : String
  refreshInterval : ℕ
  notifications : NotificationSettings

/-- AppSettings::default from models.rs, on the embedded fields. -/
def defaultAppSettings : AppSettings where
  refreshMode := "adaptive"
  refreshInterval := 300
  notifications :=
    { enabled := true
      thresholds := [50, 75, 90]
      notifyOnReset := true
      notifyOnExpiry := true
      dndEnabled := false
      dndStartTime := none
      dndEndTime := none }

/-- NotificationService::is_dnd_active (notifications.rs lines 287-317);
`nowLocal` is the current local time in minutes since midnight. -/
def isDndActive (settings : NotificationSettings) (nowLocal : ℕ) : Bool :=
  if !settings.dndEnabled then false
  else
    match settings.dndStartTime, settings.dndEndTime with
    | some startT, some endT =>
      if startT > endT then
        decide (nowLocal ≥ startT) || decide (nowLocal < endT)
      else
        decide (nowLocal ≥ startT) && decide (nowLocal < endT)
    | _, _ => false

/-- NotificationService::send_notification (notifications.rs lines
320-349): false under an active DND window, otherwise the result of the
external tauri `.show()` call, which is the `showOk` parameter. -/
def sendNotification (settings : AppSettings) (nowLocal : ℕ) (showOk : Bool) : Bool :=
  if isDndActive settings.notifications nowLocal then false else showOk

/-- NotificationState (notifications.rs): the two HashSets of sent-flags,
modelled as characteristic functions of their key tuples. -/
structure NotificationState where
  sentThresholds : String → String → ℕ → Bool
  sentResetWarnings : String → String → Bool

/-- NotificationState::new (both sets empty). -/
def NotificationState.initial : NotificationState :=
  ⟨fun _ _ _ => false, fun _ _ => false⟩

/-- NotificationState::was_threshold_notified. -/
def NotificationState.wasThresholdNotified (st : NotificationState)
    (accountId limitId : String) (threshold : ℕ) : Bool :=
  st.sentThresholds accountId limitId threshold

/-- NotificationState::mark_threshold_notified (HashSet insert). -/
def NotificationState.markThresholdNotified (st : NotificationState)
    (accountId limitId : String) (threshold : ℕ) : NotificationState :=
  { st with sentThresholds := fun a l t =>
      if (a, l, t) = (accountId, limitId, threshold) then true
      else st.sentThresholds a l t }

/-- NotificationState::clear_threshold (HashSet remove). -/
def NotificationState.clearThreshold (st : NotificationState)
    (accountId limitId : String) (threshold : ℕ) : NotificationState :=
  { st with sentThresholds := fun a l t =>
      if (a, l, t) = (accountId, limitId, threshold) then false
      else st.sentThresholds a l t }

/-- NotificationState::clear_thresholds_above (notifications.rs lines
50-55): retain every element not matching this account and limit with a
threshold strictly above `currentPercent`. -/
def NotificationState.clearThresholdsAbove (st : NotificationState)
    (accountId limitId : String) (currentPercent : ℕ) : NotificationState :=
  { st with sentThresholds := fun a l t =>
      st.sentThresholds a l t &&
        !(a == accountId && l == limitId && decide (t > currentPercent)) }

/-- NotificationState::was_reset_warning_sent. -/
def NotificationState.wasResetWarningSent (st : NotificationState)
    (accountId limitId : String) : Bool :=
  st.sentResetWarnings accountId limitId

/-- NotificationState::mark_reset_warning_sent. -/
def NotificationState.markResetWarningSent (st : NotificationState)
    (accountId limitId : String) : NotificationState :=
  { st with sentResetWarnings := fun a l =>
      if (a, l) = (accountId, limitId) then true else st.sentResetWarnings a l }

/-- NotificationState::clear_reset_warning. -/
def NotificationState.clearResetWarning (st : NotificationState)
    (accountId limitId : String) : NotificationState :=
  { st with sentResetWarnings := fun a l =>
      if (a, l) = (accountId, limitId) then false else st.sentResetWarnings a l }

/-- UsageLimit (models.rs) with the f64 utilization as ℚ. -/
structure UsageLimit where
  id : String
  label : String
  utilization : ℚ
  resetsAt : ℤ
  category : Option String
deriving DecidableEq

/-- UsageData (models.rs), with the account_id/account_name fields that
the scheduler sets on it and notifications.rs reads. -/
structure UsageData where
  provider : String
  accountId : String
  accountName : String
  timestamp : ℤ
  limits : List UsageLimit
deriving DecidableEq

/-- One record of the threshold-alert loop: the threshold for which
send_notification was invoked and whether it reported delivery. -/
structure ThresholdAlert where
  threshold : ℕ
  delivered : Bool
deriving DecidableEq

/-- The per-threshold loop of check_threshold_notifications
(notifications.rs lines 136-165): for each configured threshold, if the
current percent has reached it and it is not yet marked sent, call
send_notification and mark it sent exactly when delivery succeeded.
The notification title/body strings carry no state and are not modelled. -/
def thresholdLoop (settings : AppSettings) (nowLocal : ℕ) (showOk : Bool)
    (accountId limitId : String) (currentPercent : ℕ) :
    List ℕ → NotificationState → NotificationState × List ThresholdAlert
  | [], st => (st, [])
  | t :: ts, st =>
    if decide (currentPercent ≥ t) && !(st.wasThresholdNotified accountId limitId t) then
      let delivered := sendNotification settings nowLocal showOk
      let st1 := if delivered then st.markThresholdNotified accountId limitId t else st
      let r := thresholdLoop settings nowLocal showOk accountId limitId currentPercent ts st1
      (r.1, ⟨t, delivered⟩ :: r.2)
    else
      thresholdLoop settings nowLocal showOk accountId limitId currentPercent ts st

/-- NotificationService::check_threshold_notifications (notifications.rs
lines 117-166), returning the new state and the alert log. -/
def checkThresholdNotifications (settings : AppSettings) (nowLocal : ℕ) (showOk : Bool)
    (st : NotificationState) (accountId : String) (limit : UsageLimit) :
    NotificationState × List ThresholdAlert :=
  thresholdLoop settings nowLocal showOk accountId limit.id
    (f64AsU32 limit.utilization) settings.notifications.thresholds st

/-- NotificationService::check_reset_notification (notifications.rs lines
169-217): compare against the first limit of the cached previous snapshot
with the same id; on a detected reset, send (delivery outcome unchecked),
clear the imminent-reset flag and the {50,75,90,100} threshold flags for
this account and limit. Returns the new state and whether the reset alert
fired. -/
def checkResetNotification (st : NotificationState) (accountId : String)
    (limit : UsageLimit) (previousUsage : Option UsageData) :
    NotificationState × Bool :=
  match previousUsage with
  | none => (st, false)
  | some prev =>
    match prev.limits.find? (fun l => l.id == limit.id) with
    | none => (st, false)
    | some prevLimit =>
      let prevPercent := f64AsU32 prevLimit.utilization
      let currPercent := f64AsU32 limit.utilization
      if decide (prevPercent ≥ 50) && decide (currPercent < prevPercent - 40) then
        let st1 := st.clearResetWarning accountId limit.id
        let st2 := [50, 75, 90, 100].foldl
          (fun s t => NotificationState.clearThreshold s accountId limit.id t) st1
        (st2, true)
      else
        (st, false)

/-- NotificationService::check_upcoming_reset (notifications.rs lines
220-266); `nowUtc` and `resetsAt` are seconds, so Duration::hours(1) is
3600. Returns the new state and whether the warning was sent and marked. -/
def checkUpcomingReset (settings : AppSettings) (nowLocal : ℕ) (showOk : Bool)
    (nowUtc : ℤ) (st : NotificationState) (accountId : String) (limit : UsageLimit) :
    NotificationState × Bool :=
  if !settings.notifications.enabled || !settings.notifications.notifyOnReset then
    (st, false)
  else
    let timeUntilReset := limit.resetsAt - nowUtc
    let currentPercent := f64AsU32 limit.utilization
    if decide (0 < timeUntilReset) && decide (timeUntilReset ≤ 3600) &&
        decide (currentPercent ≥ 75) && !(st.wasResetWarningSent accountId limit.id) then
      if sendNotification settings nowLocal showOk then
        (st.markResetWarningSent accountId limit.id, true)
      else
        (st, false)
    else
      (st, false)

/-- UsageLimitSnapshot (models.rs). -/
structure UsageLimitSnapshot where
  id : String
  utilization : ℚ
  resetsAt : ℤ
deriving DecidableEq

/-- UsageHistoryEntry (models.rs), with the account fields that
services/history.rs reads and writes. -/
structure UsageHistoryEntry where
  id : String
  provider : String
  accountId : String
  accountName : String
  timestamp : ℤ
  limits : List UsageLimitSnapshot
deriving DecidableEq

/-- HistoryQuery (models.rs), with the account filter history.rs applies. -/
structure HistoryQuery where
  provider : Option String
  accountId : Option String
  startDate : Option ℤ
  endDate : Option ℤ
  limit : Option ℕ
  offset : Option ℕ

/-- HistoryService::query (history.rs lines 90-128): conjunctive filters,
stable sort by timestamp descending, offset (empty when at or beyond the
result size), then truncate to `limit` (default 1000). -/
def queryHistory (entries : List UsageHistoryEntry) (q : HistoryQuery) :
    List UsageHistoryEntry :=
  let e1 : List UsageHistoryEntry := match q.provider with
    | some p => entries.filter (fun e => e.provider == p)
    | none => entries
  let e2 : List UsageHistoryEntry := match q.accountId with
    | some a => e1.filter (fun e => e.accountId == a)
    | none => e1
  let e3 : List UsageHistoryEntry := match q.startDate with
    | some s => e2.filter (fun e => decide (s ≤ e.timestamp))
    | none => e2
  let e4 : List UsageHistoryEntry := match q.endDate with
    | some t => e3.filter (fun e => decide (e.timestamp ≤ t))
    | none => e3
  let sorted := e4.mergeSort (fun a b => decide (b.timestamp ≤ a.timestamp))
  let offs : List UsageHistoryEntry := match q.offset with
    | some o => if o < sorted.length then sorted.drop o else []
    | none => sorted
  offs.take (q.limit.getD 1000)

/-- UsageStats (models.rs) with utilizations as ℚ. -/
structure UsageStats where
  provider : String
  limitId : String
  periodStart : ℤ
  periodEnd : ℤ
  avgUtilization : ℚ
  maxUtilization : ℚ
  minUtilization : ℚ
  sampleCount : ℕ
deriving DecidableEq

/-- HistoryService::get_stats (history.rs lines 259-305): a provider/date
query (account, limit and offset unset), readings flattened and filtered
by limit id, and the aggregates over the resulting utilizations; `none`
when no reading matches. The f64 folds seeded with NEG_INFINITY/INFINITY
run only in the nonempty case, where they equal folds seeded with the
first element. -/
def getStats (entries : List UsageHistoryEntry) (provider limitId : String)
    (startD endD : ℤ) : Option UsageStats :=
  let q : HistoryQuery :=
    { provider := some provider, accountId := none, startDate := some startD,
      endDate := some endD, limit := none, offset := none }
  let es := queryHistory entries q
  let utilizations :=
    ((es.flatMap (fun e => e.limits)).filter (fun l => l.id == limitId)).map
      (fun l => l.utilization)
  match utilizations with
  | [] => none
  | u :: us =>
    some
      { provider := provider
        limitId := limitId
        periodStart := startD
        periodEnd := endD
        avgUtilization := (u :: us).sum / ((u :: us).length : ℚ)
        maxUtilization := us.foldl max u
        minUtilization := us.foldl min u
        sampleCount := (u :: us).length }

/-- The entries of the store matching `getStats`' provider/date filters,
in store order (the filtering chain of query before sort/offset/limit). -/
def matchingEntries (entries : List UsageHistoryEntry)
    (provider : String) (startD endD : ℤ) : List UsageHistoryEntry :=
  entries.filter (fun e =>
    e.provider == provider && decide (startD ≤ e.timestamp) &&
      decide (e.timestamp ≤ endD))

/-- Stated from the claim: the utilization readings of every stored entry
matching the provider and date range (no entry cap), flattened and
filtered by limit id exactly as the claim describes, for comparison with
`getStats`. -/
def allMatchingUtilizations (entries : List UsageHistoryEntry)
    (provider limitId : String) (startD endD : ℤ) : List ℚ :=
  (((matchingEntries entries provider startD endD).flatMap
      (fun e => e.limits)).filter (fun l => l.id == limitId)).map
    (fun l => l.utilization)

/-- RetentionPolicy (models.rs). -/
structure RetentionPolicy where
  retentionDays : ℕ
  autoCleanup : Bool

/-- The history store slice that cleanup touches: the entries list and the
last_cleanup metadata timestamp. -/
structure HistoryStore where
  entries : List UsageHistoryEntry
  lastCleanup : Option ℤ
deriving DecidableEq

/-- HistoryService::cleanup (history.rs lines 217-256); `now` is the
Utc::now() instant in seconds, Duration::days(d) is d·86400 seconds.
Returns the new store and the removed count; the store (entries and
last_cleanup) is written only when something was removed. -/
def cleanupHistory (store : HistoryStore) (policy : RetentionPolicy) (now : ℤ) :
    HistoryStore × ℕ :=
  if policy.retentionDays = 0 then (store, 0)
  else
    let cutoff := now - (policy.retentionDays : ℤ) * 86400
    let kept := store.entries.filter (fun e => decide (cutoff ≤ e.timestamp))
    let removedCount := store.entries.length - kept.length
    if 0 < removedCount then
      ({ entries := kept, lastCleanup := some now }, removedCount)
    else
      (store, removedCount)

/-- SchedulerService::start seeding (scheduler.rs lines 203-206): the
interval stored by start() is the raw settings value, with no clamping. -/
def startSeedInterval (settings : AppSettings) : ℕ :=
  settings.refreshInterval

/-- SchedulerService::maybe_adjust_interval_from_utilization (scheduler.rs
lines 546-588): the stored interval after the adaptive recomputation. -/
def adaptiveInterval (settings : AppSettings) (currentInterval : ℕ)
    (maxUtilization : ℚ) : ℕ :=
  if !(settings.refreshMode == "adaptive") then currentInterval
  else
    if maxUtilization ≥ 90 then 60
    else if maxUtilization ≥ 75 then 180
    else if maxUtilization ≥ 50 then 300
    else 600

/-- The set_refresh_interval tauri command (commands/scheduler.rs lines
28-42): clamps the live scheduler interval but persists the raw value
into settings. Settings persistence itself is outside src/; modelled from
the spec: SettingsStore get/save round-trips the stored fields unchanged. -/
def setRefreshIntervalCommand (settings : AppSettings) (intervalSecs : ℕ) :
    ℕ × AppSettings :=
  (setIntervalEffective intervalSecs, { settings with refreshInterval := intervalSecs })

/-- Program points of the fetch-gate handling in
SchedulerService::fetch_all_accounts (scheduler.rs lines 319-339): a task
try_locks the gate (skipping when it is held), then drops the guard, then
re-acquires the gate with a plain blocking lock().await, then runs the
fetch body under the lock and releases it. -/
inductive GatePC where
  | start
  | held
  | released
  | body
  | done
  | skipped
deriving DecidableEq

/-- The fetch gate with any number of triggering tasks (periodic ticks and
force_refresh calls), each at some program point. -/
structure GateSystem where
  owner : Option ℕ
  pcs : ℕ → GatePC
  bodyRuns : ℕ

/-- One step of task `i` through the gate protocol of fetch_all_accounts:
try_lock skips when the gate is held; the later lock().await blocks (no
progress) while the gate is held and otherwise acquires it. -/
def gateStep (s : GateSystem) (i : ℕ) : GateSystem :=
  match s.pcs i with
  | .start =>
    match s.owner with
    | none => { s with owner := some i, pcs := fun j => if j = i then .held else s.pcs j }
    | some _ => { s with pcs := fun j => if j = i then .skipped else s.pcs j }
  | .held => { s with owner := none, pcs := fun j => if j = i then .released else s.pcs j }
  | .released =>
    match s.owner with
    | none => { s with owner := some i, pcs := fun j => if j = i then .body else s.pcs j }
    | some _ => s
  | .body =>
    { owner := none, pcs := fun j => if j = i then .done else s.pcs j,
      bodyRuns := s.bodyRuns + 1 }
  | .done => s
  | .skipped => s

/-- All gate tasks at their start, gate free, no body run yet. -/
def gateInit : GateSystem :=
  { owner := none, pcs := fun _ => GatePC.start, bodyRuns := 0 }

/-- Run an explicit interleaving schedule from the initial gate system. -/
def gateRun (sched : List ℕ) : GateSystem :=
  sched.foldl gateStep gateInit

/-- The gate invariant: a task is between a successful lock acquisition
and the corresponding release (program points held or body) exactly when
it owns the gate. -/
def gateInv (s : GateSystem) : Prop :=
  ∀ i, (s.pcs i = GatePC.held ∨ s.pcs i = GatePC.body) ↔ s.owner = some i

/-- A session-expired fetch failure, as process_account_result sees it. -/
def wAuthErr : AppError := .provider .sessionExpired

/-- The configuration error fetch_account_usage builds for an account with
incomplete credentials (scheduler.rs lines 387-392). -/
def wCfgErr : AppError :=
  .provider (.invalidCredentials "Missing org_id or session_key for account Default")

/-- A current reading at 80% on the five_hour limit. -/
def wLimit80 : UsageLimit :=
  { id := "five_hour", label := "Current session", utilization := 80,
    resetsAt := 4000, category := none }

/-- A current reading at 50% on the five_hour limit. -/
def wLimit50 : UsageLimit :=
  { id := "five_hour", label := "Current session", utilization := 50,
    resetsAt := 4000, category := none }

/-- A current reading at 10% on the five_hour limit. -/
def wLimit10 : UsageLimit :=
  { id := "five_hour", label := "Current session", utilization := 10,
    resetsAt := 4000, category := none }

/-- A cached previous snapshot with the five_hour limit at 90%. -/
def wPrev90 : UsageData :=
  { provider := "claude", accountId := "A", accountName := "A", timestamp := 0,
    limits := [{ id := "five_hour", label := "Current session", utilization := 90,
                 resetsAt := 4000, category := none }] }

/-- Default settings with DND enabled from 22:00 to 08:00 (a window that
spans midnight). -/
def wDndSettings : AppSettings :=
  { defaultAppSettings with
      notifications :=
        { defaultAppSettings.notifications with
            dndEnabled := true
            dndStartTime := some 1320
            dndEndTime := some 480 } }

/-- A stored history entry for provider claude at timestamp 0 with one
five_hour reading at 42%. -/
def wEntry : UsageHistoryEntry :=
  { id := "0-claude-A", provider := "claude", accountId := "A", accountName := "A",
    timestamp := 0,
    limits := [{ id := "five_hour", utilization := 42, resetsAt := 4000 }] }

/-- A stored history entry far in the past (for cleanup). -/
def wOldEntry : UsageHistoryEntry :=
  { id := "old-claude-A", provider := "claude", accountId := "A", accountName := "A",
    timestamp := -100000000,
    limits := [{ id := "five_hour", utilization := 7, resetsAt := 4000 }] }

/-- A store of 1001 identical matching entries (more than the query cap). -/
def hist1001 : List UsageHistoryEntry := List.replicate 1001 wEntry

/-- The utilization list that get_stats aggregates: the readings of the
(capped) query result, flattened, filtered by limit id and projected to
their utilizations, exactly as in the body of get_stats. -/
def statsUtilList (entries : List UsageHistoryEntry) (provider limitId : String)
    (startD endD : ℤ) : List ℚ :=
  (((queryHistory entries
      { provider := some provider, accountId := none, startDate := some startD,
        endDate := some endD, limit := none, offset := none }).flatMap
      (fun e => e.limits)).filter (fun l => l.id == limitId)).map
    (fun l => l.utilization)

/-! Helper lemmas about the session maps. -/

theorem SessionMaps.getCount_reset_self (s : SessionMaps) (a : String) :
    (s.resetAccountErrorCount a).getAccountErrorCount a = 0 := by
  simp [SessionMaps.resetAccountErrorCount, SessionMaps.getAccountErrorCount]

theorem SessionMaps.getCount_setPaused (s : SessionMaps) (a b : String) (p : Bool) :
    (s.setAccountPaused a p).getAccountErrorCount b = s.getAccountErrorCount b := rfl

theorem SessionMaps.isPaused_setPaused_self (s : SessionMaps) (a : String) (p : Bool) :
    (s.setAccountPaused a p).isAccountPaused a = p := by
  simp [SessionMaps.setAccountPaused, SessionMaps.isAccountPaused]

theorem SessionMaps.isPaused_reset (s : SessionMaps) (a b : String) :
    (s.resetAccountErrorCount a).isAccountPaused b = s.isAccountPaused b := rfl

theorem SessionMaps.increment_fst (s : SessionMaps) (a : String) :
    (s.incrementAccountErrorCount a).1 = s.getAccountErrorCount a + 1 := rfl

theorem SessionMaps.getCount_increment_self (s : SessionMaps) (a : String) :
    (s.incrementAccountErrorCount a).2.getAccountErrorCount a
      = s.getAccountErrorCount a + 1 := by
  simp [SessionMaps.incrementAccountErrorCount, SessionMaps.getAccountErrorCount]

theorem SessionMaps.isPaused_increment (s : SessionMaps) (a b : String) :
    (s.incrementAccountErrorCount a).2.isAccountPaused b = s.isAccountPaused b := rfl

/-- The shape of process_account_result on a failure classified as a
session error: increment, then pause exactly when the threshold check
`error_count >= MAX_SESSION_ERRORS` passes. -/
theorem processAuthErr_eq (st : SessionMaps) (a : String) (e : AppError)
    (h : isSessionError e.render = true) :
    processAccountSession st a (.err e)
      = (if st.getAccountErrorCount a + 1 ≥ maxSessionErrors
          then (st.incrementAccountErrorCount a).2.setAccountPaused a true
          else (st.incrementAccountErrorCount a).2) := by
  simp [processAccountSession, h, SessionMaps.increment_fst]

/-- The shape of process_account_result on a failure not classified as a
session error: the session maps are untouched. -/
theorem processTransientErr_eq (st : SessionMaps) (a : String) (e : AppError)
    (h : isSessionError e.render = false) :
    processAccountSession st a (.err e) = st := by
  simp [processAccountSession, h]

/-- The observable session state after a successful fetch. -/
theorem processOk_state (st : SessionMaps) (a : String) :
    (processAccountSession st a .ok).getAccountErrorCount a = 0
  ∧ (processAccountSession st a .ok).isAccountPaused a = false := by
  by_cases h : (decide (st.getAccountErrorCount a > 0) || st.isAccountPaused a) = true
  · simp only [processAccountSession, h, if_true]
    constructor
    · rw [SessionMaps.getCount_setPaused, SessionMaps.getCount_reset_self]
    · rw [SessionMaps.isPaused_setPaused_self]
  · have h2 := h
    simp only [Bool.or_eq_true, decide_eq_true_eq, not_or, Bool.not_eq_true] at h2
    obtain ⟨hc, hp⟩ := h2
    have hc0 : st.getAccountErrorCount a = 0 := by omega
    simp only [processAccountSession, h, if_false]
    exact ⟨hc0, hp⟩

/-- C1: the per-account session-failure machine of process_account_result
behaves as the reference transition function: a successful fetch leaves
the account with error count 0 and unpaused regardless of prior state; a
failure classified as authentication-class increments the count, pausing
exactly when the new count reaches the threshold MAX_SESSION_ERRORS = 3
(on states where pausedness agrees with the threshold, which all states
reachable from the initial maps satisfy); a failure classified as
transient leaves the maps unchanged; and three consecutive
authentication-class failures for account `a` from the initial state
leave `a` paused with error count 3. -/
theorem C1_session_state_machine (st : SessionMaps) (a : String) (e : AppError) :
    ((processAccountSession st a .ok).getAccountErrorCount a = 0
      ∧ (processAccountSession st a .ok).isAccountPaused a = false)
  ∧ (isSessionError e.render = true →
      (processAccountSession st a (.err e)).getAccountErrorCount a
          = st.getAccountErrorCount a + 1
      ∧ (processAccountSession st a (.err e)).isAccountPaused a
          = (st.isAccountPaused a
              || decide (maxSessionErrors ≤ st.getAccountErrorCount a + 1)))
  ∧ (isSessionError e.render = true →
      st.isAccountPaused a = decide (maxSessionErrors ≤ st.getAccountErrorCount a) →
      (processAccountSession st a (.err e)).isAccountPaused a
        = decide (maxSessionErrors
            ≤ (processAccountSession st a (.err e)).getAccountErrorCount a))
  ∧ (isSessionError e.render = false → processAccountSession st a (.err e) = st)
  ∧ ((processAccountSession (processAccountSession (processAccountSession
        SessionMaps.initial a (.err wAuthErr)) a (.err wAuthErr)) a
        (.err wAuthErr)).isAccountPaused a = true
      ∧ (processAccountSession (processAccountSession (processAccountSession
          SessionMaps.initial a (.err wAuthErr)) a (.err wAuthErr)) a
          (.err wAuthErr)).getAccountErrorCount a = 3) := by
  have hauth : isSessionError wAuthErr.render = true := by decide
  have step : ∀ s : SessionMaps, ∀ h : isSessionError e.render = true,
      (processAccountSession s a (.err e)).getAccountErrorCount a
          = s.getAccountErrorCount a + 1
      ∧ (processAccountSession s a (.err e)).isAccountPaused a
          = (s.isAccountPaused a
              || decide (maxSessionErrors ≤ s.getAccountErrorCount a + 1)) := by
    intro s h
    rw [processAuthErr_eq s a e h]
    by_cases hth : maxSessionErrors ≤ s.getAccountErrorCount a + 1
    · simp only [ge_iff_le, hth, if_true, decide_eq_true hth]
      refine ⟨?_, ?_⟩
      · rw [SessionMaps.getCount_setPaused, SessionMaps.getCount_increment_self]
      · rw [SessionMaps.isPaused_setPaused_self]; simp
    · simp only [ge_iff_le, hth, if_false, decide_eq_false hth]
      refine ⟨SessionMaps.getCount_increment_self s a, ?_⟩
      rw [SessionMaps.isPaused_increment]; simp
  have stepAuth : ∀ s : SessionMaps,
      (processAccountSession s a (.err wAuthErr)).getAccountErrorCount a
          = s.getAccountErrorCount a + 1
      ∧ (processAccountSession s a (.err wAuthErr)).isAccountPaused a
          = (s.isAccountPaused a
              || decide (maxSessionErrors ≤ s.getAccountErrorCount a + 1)) := by
    intro s
    rw [processAuthErr_eq s a wAuthErr hauth]
    by_cases hth : maxSessionErrors ≤ s.getAccountErrorCount a + 1
    · simp only [ge_iff_le, hth, if_true, decide_eq_true hth]
      refine ⟨?_, ?_⟩
      · rw [SessionMaps.getCount_setPaused, SessionMaps.getCount_increment_self]
      · rw [SessionMaps.isPaused_setPaused_self]; simp
    · simp only [ge_iff_le, hth, if_false, decide_eq_false hth]
      refine ⟨SessionMaps.getCount_increment_self s a, ?_⟩
      rw [SessionMaps.isPaused_increment]; simp
  refine ⟨processOk_state st a, step st, ?_, processTransientErr_eq st a e, ?_⟩
  · intro h hinv
    obtain ⟨hc, hp⟩ := step st h
    rw [hc, hp, hinv]
    by_cases hth : maxSessionErrors ≤ st.getAccountErrorCount a + 1
    · simp [decide_eq_true hth]
    · have hth0 : ¬ maxSessionErrors ≤ st.getAccountErrorCount a := by omega
      simp [decide_eq_false hth, decide_eq_false hth0]
  · set s0 := SessionMaps.initial with hs0
    have h0c : s0.getAccountErrorCount a = 0 := rfl
    have h0p : s0.isAccountPaused a = false := rfl
    set s1 := processAccountSession s0 a (.err wAuthErr) with hs1
    obtain ⟨h1c, h1p⟩ := stepAuth s0
    rw [h0c] at h1c
    rw [h0p, h0c] at h1p
    set s2 := processAccountSession s1 a (.err wAuthErr) with hs2
    obtain ⟨h2c, h2p⟩ := stepAuth s1
    rw [h1c] at h2c
    rw [h1c, h1p] at h2p
    set s3 := processAccountSession s2 a (.err wAuthErr) with hs3
    obtain ⟨h3c, h3p⟩ := stepAuth s2
    rw [h2c] at h3c
    rw [h2c, h2p] at h3p
    refine ⟨?_, ?_⟩
    · rw [h3p]; decide
    · rw [h3c]

/-- C1 witness: the machine evaluated at concrete inputs — a success from
a dirty state, one authentication-class failure from the initial state,
and a transient parse failure. -/
theorem C1_witness :
    (processAccountSession SessionMaps.initial "A" .ok).getAccountErrorCount "A" = 0
  ∧ (processAccountSession SessionMaps.initial "A" (.err wAuthErr)).getAccountErrorCount "A"
      = SessionMaps.initial.getAccountErrorCount "A" + 1
  ∧ (processAccountSession SessionMaps.initial "A" (.err wAuthErr)).isAccountPaused "A"
      = decide (maxSessionErrors
          ≤ (processAccountSession SessionMaps.initial "A" (.err wAuthErr)).getAccountErrorCount "A")
  ∧ processAccountSession SessionMaps.initial "A"
      (.err (.provider (.parseError "bad json"))) = SessionMaps.initial :=
  ⟨(C1_session_state_machine SessionMaps.initial "A" wAuthErr).1.1,
   ((C1_session_state_machine SessionMaps.initial "A" wAuthErr).2.1 (by decide)).1,
   (C1_session_state_machine SessionMaps.initial "A" wAuthErr).2.2.1 (by decide) (by decide),
   (C1_session_state_machine SessionMaps.initial "A"
      (.provider (.parseError "bad json"))).2.2.2.1 (by decide)⟩

/-- C3 counterexample: the configuration error that fetch_account_usage
raises for incomplete credentials renders without any of the substrings
the classifier looks for, so it is not counted: the error count stays 0
and nothing is paused, although the claim says it increments the count
like a session-expired error. -/
theorem C3_counterexample :
    isSessionError wCfgErr.render = false
  ∧ isSessionError (AppError.provider (ProviderError.missingCredentials "claude")).render
      = false
  ∧ processAccountSession SessionMaps.initial "A" (.err wCfgErr) = SessionMaps.initial
  ∧ (processAccountSession SessionMaps.initial "A" (.err wCfgErr)).getAccountErrorCount "A"
      = 0 :=
  ⟨by decide, by decide, rfl, rfl⟩

/-- C3 amended: process_account_result classifies a failure by substring
search for "expired"/"401"/"SessionExpired" in the rendered error string;
a MissingCredentials or InvalidCredentials configuration error whose
message lacks those substrings (as the standard renderings do) is treated
like a transient error: the consecutive session-error count and the pause
flag are left unchanged. -/
theorem C3_config_errors_not_counted (st : SessionMaps) (a msg1 msg2 : String)
    (h1 : isSessionError (AppError.provider (ProviderError.missingCredentials msg1)).render
      = false)
    (h2 : isSessionError (AppError.provider (ProviderError.invalidCredentials msg2)).render
      = false) :
    processAccountSession st a (.err (.provider (.missingCredentials msg1))) = st
  ∧ processAccountSession st a (.err (.provider (.invalidCredentials msg2))) = st :=
  ⟨processTransientErr_eq st a _ h1, processTransientErr_eq st a _ h2⟩

/-- C3 witness: the amended statement at concrete configuration errors. -/
theorem C3_witness :
    processAccountSession SessionMaps.initial "A"
      (.err (.provider (.missingCredentials "claude"))) = SessionMaps.initial
  ∧ processAccountSession SessionMaps.initial "A"
      (.err (.provider (.invalidCredentials "Missing org_id or session_key for account Default")))
      = SessionMaps.initial :=
  C3_config_errors_not_counted SessionMaps.initial "A" "claude"
    "Missing org_id or session_key for account Default" (by decide) (by decide)

/-- C5 counterexample: the set_refresh_interval command called with 5
clamps the live interval to 10 but persists the raw 5 into settings, and
the next start() seeds the live interval straight from settings: the
effective interval becomes 5, below the 10-second floor. -/
theorem C5_counterexample :
    (setRefreshIntervalCommand defaultAppSettings 5).1 = 10
  ∧ startSeedInterval (setRefreshIntervalCommand defaultAppSettings 5).2 = 5
  ∧ ¬ (10 ≤ startSeedInterval (setRefreshIntervalCommand defaultAppSettings 5).2) :=
  ⟨rfl, rfl, by decide⟩

/-- C5 amended: set_interval(x) stores exactly max(x, 10), so its result
respects the 10-second floor, and the adaptive recomputation stores only
the bands 60/180/300/600 when the refresh mode is adaptive (all above the
floor); but start() seeds the stored interval with the raw
settings.refresh_interval, with no floor applied. -/
theorem C5_interval_floor (x : ℕ) (settings : AppSettings) (cur : ℕ) (u : ℚ)
    (hmode : settings.refreshMode = "adaptive") :
    setIntervalEffective x = max x 10
  ∧ 10 ≤ setIntervalEffective x
  ∧ (adaptiveInterval settings cur u = 60 ∨ adaptiveInterval settings cur u = 180
      ∨ adaptiveInterval settings cur u = 300 ∨ adaptiveInterval settings cur u = 600)
  ∧ 10 ≤ adaptiveInterval settings cur u
  ∧ startSeedInterval settings = settings.refreshInterval := by
  have hbands : adaptiveInterval settings cur u = 60 ∨ adaptiveInterval settings cur u = 180
      ∨ adaptiveInterval settings cur u = 300 ∨ adaptiveInterval settings cur u = 600 := by
    unfold adaptiveInterval
    rw [hmode]
    split
    · simp_all
    · split
      · tauto
      · split
        · tauto
        · split
          · tauto
          · tauto
  refine ⟨rfl, le_max_right x 10, hbands, ?_, rfl⟩
  rcases hbands with h | h | h | h <;> rw [h] <;> omega

/-- C5 witness: the amended statement at x = 3 with adaptive settings at
95% utilization. -/
theorem C5_witness :
    setIntervalEffective 3 = max 3 10
  ∧ 10 ≤ adaptiveInterval defaultAppSettings 300 95 :=
  ⟨(C5_interval_floor 3 defaultAppSettings 300 95 rfl).1,
   (C5_interval_floor 3 defaultAppSettings 300 95 rfl).2.2.2.1⟩

/-- C8: force_refresh called with the last recorded fetch less than 10
seconds (10000 ms) in the past returns the explicit RateLimit error and
the fetch cycle does not run; once at least 10 seconds have elapsed, or
when no fetch was ever recorded (last = 0), it proceeds with the fetch
cycle. -/
theorem C8_force_refresh_gate (last d : ℕ) (hlast : last ≠ 0) :
    (d < 10000 → forceRefresh last (last + d)
      = .error (.rateLimit "Please wait before refreshing again"))
  ∧ (10000 ≤ d → forceRefresh last (last + d) = .ok true)
  ∧ (∀ now, forceRefresh 0 now = .ok true) := by
  have hsub : last + d - last = d := by omega
  refine ⟨?_, ?_, ?_⟩
  · intro h
    have hdiv : d / 1000 < minRefreshIntervalSecs := by
      unfold minRefreshIntervalSecs
      rw [Nat.div_lt_iff_lt_mul (by norm_num)]
      omega
    simp [forceRefresh, canFetch, hlast, hsub, hdiv]
  · intro h
    have hdiv : minRefreshIntervalSecs ≤ d / 1000 := by
      unfold minRefreshIntervalSecs
      rw [Nat.le_div_iff_mul_le (by norm_num)]
      omega
    simp [forceRefresh, canFetch, hlast, hsub, hdiv]
  · intro now
    simp [forceRefresh, canFetch]

/-- C8 witness: a second call 999 ms after a fetch is rejected with the
RateLimit error; a call 10000 ms after is allowed; a call with no fetch
recorded is allowed. -/
theorem C8_witness :
    forceRefresh 5000 (5000 + 999)
      = .error (.rateLimit "Please wait before refreshing again")
  ∧ forceRefresh 5000 (5000 + 10000) = .ok true
  ∧ forceRefresh 0 7 = .ok true :=
  ⟨(C8_force_refresh_gate 5000 999 (by decide)).1 (by decide),
   (C8_force_refresh_gate 5000 10000 (by decide)).2.1 (by decide),
   (C8_force_refresh_gate 5000 0 (by decide)).2.2 7⟩

/-! Helper lemmas about list filtering for the history store. -/

theorem length_sub_filter (p : UsageHistoryEntry → Bool) (l : List UsageHistoryEntry) :
    l.length - (l.filter p).length = (l.filter (fun a => !(p a))).length := by
  induction l with
  | nil => rfl
  | cons x xs ih =>
    have hle := List.length_filter_le p xs
    by_cases h : p x = true
    · simp [List.filter_cons, h]
      omega
    · have h' : p x = false := by simp [Bool.not_eq_true] at h; exact h
      simp [List.filter_cons, h']
      omega

theorem filter_eq_self_of_length (p : UsageHistoryEntry → Bool)
    (l : List UsageHistoryEntry) (h : (l.filter p).length = l.length) :
    l.filter p = l := by
  induction l with
  | nil => rfl
  | cons x xs ih =>
    have hle := List.length_filter_le p xs
    by_cases hx : p x = true
    · simp only [List.filter_cons, hx, if_true, List.length_cons] at h ⊢
      rw [ih (by omega)]
    · have h' : p x = false := by simp [Bool.not_eq_true] at hx; exact hx
      simp only [List.filter_cons, h', Bool.false_eq_true, if_false, List.length_cons] at h
      omega

/-- C6 amended: cleanup with retention_days = 0 is a no-op returning 0;
with retention_days = d > 0 it keeps exactly the entries with timestamp
at or after now − d days, returns exactly the number of strictly older
entries it removed, and records the cleanup timestamp only when that
number is positive — when nothing was removed the stored last_cleanup is
left as it was. -/
theorem C6_cleanup_retention (store : HistoryStore) (policy : RetentionPolicy) (now : ℤ) :
    (policy.retentionDays = 0 → cleanupHistory store policy now = (store, 0))
  ∧ (0 < policy.retentionDays →
      (cleanupHistory store policy now).1.entries
          = store.entries.filter
              (fun e => decide (now - (policy.retentionDays : ℤ) * 86400 ≤ e.timestamp))
      ∧ (cleanupHistory store policy now).2
          = (store.entries.filter
              (fun e => decide (e.timestamp < now - (policy.retentionDays : ℤ) * 86400))).length
      ∧ (cleanupHistory store policy now).1.lastCleanup
          = (if 0 < (cleanupHistory store policy now).2 then some now
             else store.lastCleanup)) := by
  constructor
  · intro h0
    simp [cleanupHistory, h0]
  · intro hpos
    have hne : ¬ policy.retentionDays = 0 := by omega
    set cutoff := now - (policy.retentionDays : ℤ) * 86400 with hcut
    have hcompl : (store.entries.filter (fun e => !(decide (cutoff ≤ e.timestamp)))).length
        = (store.entries.filter (fun e => decide (e.timestamp < cutoff))).length := by
      congr 1
      apply List.filter_congr
      intro x _
      by_cases hc : cutoff ≤ x.timestamp
      · simp [hc, not_lt.mpr hc]
      · simp [hc, not_le.mp hc]
    set kept := store.entries.filter (fun e => decide (cutoff ≤ e.timestamp)) with hkept
    set removed := store.entries.length - kept.length with hremoved
    have hcount : store.entries.length - kept.length
        = (store.entries.filter (fun e => decide (e.timestamp < cutoff))).length := by
      rw [hkept, length_sub_filter]
      exact hcompl
    have hcl : cleanupHistory store policy now
        = (if 0 < removed then (⟨kept, some now⟩, removed) else (store, removed)) := by
      simp only [cleanupHistory, hne, if_false, ← hcut, ← hkept, ← hremoved]
    by_cases hrem : 0 < removed
    · rw [hcl, if_pos hrem]
      refine ⟨rfl, ?_, ?_⟩
      · rw [hremoved]; exact hcount
      · simp [hrem]
    · rw [hcl, if_neg hrem]
      have hlen : kept.length = store.entries.length := by
        have hle := List.length_filter_le (fun e => decide (cutoff ≤ e.timestamp)) store.entries
        rw [hremoved] at hrem
        rw [hkept]
        rw [hkept] at hrem
        omega
      have hself := filter_eq_self_of_length _ store.entries (hkept ▸ hlen)
      refine ⟨?_, ?_, ?_⟩
      · rw [← hkept] at hself
        exact hself.symm
      · rw [hremoved]; exact hcount
      · simp [hrem]

/-- C6 counterexample: with retention_days = 30 > 0 and a store holding
only a fresh entry, cleanup removes nothing and does not record the
cleanup timestamp (last_cleanup stays none), although the claim says the
cleanup timestamp is recorded whenever retention_days > 0. -/
theorem C6_counterexample :
    (0:ℕ) < 30
  ∧ cleanupHistory ⟨[wEntry], none⟩ ⟨30, true⟩ 0 = (⟨[wEntry], none⟩, 0)
  ∧ (cleanupHistory ⟨[wEntry], none⟩ ⟨30, true⟩ 0).1.lastCleanup = none :=
  ⟨by decide, rfl, rfl⟩

/-- C6 witness: the amended statement on a store with one old and one
fresh entry: exactly the old one is removed, the count is 1, and the
cleanup timestamp is recorded. -/
theorem C6_witness :
    (cleanupHistory ⟨[wOldEntry, wEntry], none⟩ ⟨30, true⟩ 86400).2 = 1
  ∧ (cleanupHistory ⟨[wOldEntry, wEntry], none⟩ ⟨30, true⟩ 86400).1.lastCleanup
      = some 86400
  ∧ (cleanupHistory ⟨[wOldEntry, wEntry], none⟩ ⟨30, true⟩ 86400).1.entries
      = [wEntry] := by
  obtain ⟨h1, h2, h3⟩ :=
    (C6_cleanup_retention ⟨[wOldEntry, wEntry], none⟩ ⟨30, true⟩ 86400).2 (by decide)
  refine ⟨?_, ?_, ?_⟩
  · rw [h2]; decide
  · rw [h3, h2]; decide
  · rw [h1]; decide

/-! Pointwise lemmas about the notification sent-flag state. -/

theorem clearThreshold_sent (st : NotificationState) (a l : String) (t : ℕ)
    (a2 l2 : String) (t2 : ℕ) :
    (st.clearThreshold a l t).sentThresholds a2 l2 t2
      = (if (a2, l2, t2) = (a, l, t) then false else st.sentThresholds a2 l2 t2) := rfl

theorem clearThreshold_warnings (st : NotificationState) (a l : String) (t : ℕ)
    (a2 l2 : String) :
    (st.clearThreshold a l t).sentResetWarnings a2 l2 = st.sentResetWarnings a2 l2 := rfl

theorem clearResetWarning_sent (st : NotificationState) (a l a2 l2 : String) :
    (st.clearResetWarning a l).sentResetWarnings a2 l2
      = (if (a2, l2) = (a, l) then false else st.sentResetWarnings a2 l2) := rfl

theorem clearResetWarning_thresholds (st : NotificationState) (a l a2 l2 : String)
    (t2 : ℕ) :
    (st.clearResetWarning a l).sentThresholds a2 l2 t2 = st.sentThresholds a2 l2 t2 := rfl

theorem markThresholdNotified_sent (st : NotificationState) (a l : String) (t : ℕ)
    (a2 l2 : String) (t2 : ℕ) :
    (st.markThresholdNotified a l t).sentThresholds a2 l2 t2
      = (if (a2, l2, t2) = (a, l, t) then true else st.sentThresholds a2 l2 t2) := rfl

/-- C2 amended: given that the cached previous snapshot has a first limit
with the current limit's id, the reset alert fires exactly when the
previous percent is ≥ 50 and the current percent is strictly below the
previous percent minus 40 (saturating); when it fires, the imminent-reset
flag and the {50,75,90,100} threshold sent-flags for this account and
limit are cleared and nothing else changes; when it does not fire the
state is untouched. -/
theorem C2_reset_detection (st : NotificationState) (accountId : String)
    (limit : UsageLimit) (prev : UsageData) (prevLimit : UsageLimit)
    (hfind : prev.limits.find? (fun l => l.id == limit.id) = some prevLimit) :
    (checkResetNotification st accountId limit (some prev)).2
        = (decide (f64AsU32 prevLimit.utilization ≥ 50)
            && decide (f64AsU32 limit.utilization
                < f64AsU32 prevLimit.utilization - 40))
  ∧ ((checkResetNotification st accountId limit (some prev)).2 = true →
      (checkResetNotification st accountId limit (some prev)).1.sentResetWarnings
          accountId limit.id = false
      ∧ (∀ t2 : ℕ, t2 = 50 ∨ t2 = 75 ∨ t2 = 90 ∨ t2 = 100 →
          (checkResetNotification st accountId limit (some prev)).1.sentThresholds
            accountId limit.id t2 = false)
      ∧ (∀ a2 l2 : String, ∀ t2 : ℕ,
          ¬(a2 = accountId ∧ l2 = limit.id ∧ (t2 = 50 ∨ t2 = 75 ∨ t2 = 90 ∨ t2 = 100)) →
          (checkResetNotification st accountId limit (some prev)).1.sentThresholds a2 l2 t2
            = st.sentThresholds a2 l2 t2)
      ∧ (∀ a2 l2 : String, ¬(a2 = accountId ∧ l2 = limit.id) →
          (checkResetNotification st accountId limit (some prev)).1.sentResetWarnings a2 l2
            = st.sentResetWarnings a2 l2))
  ∧ ((checkResetNotification st accountId limit (some prev)).2 = false →
      (checkResetNotification st accountId limit (some prev)).1 = st) := by
  have hunfold : checkResetNotification st accountId limit (some prev)
      = (if (decide (f64AsU32 prevLimit.utilization ≥ 50)
            && decide (f64AsU32 limit.utilization
                < f64AsU32 prevLimit.utilization - 40)) = true then
          ([50, 75, 90, 100].foldl
            (fun s t => NotificationState.clearThreshold s accountId limit.id t)
            (st.clearResetWarning accountId limit.id), true)
        else (st, false)) := by
    simp only [checkResetNotification, hfind]
  by_cases hcond : (decide (f64AsU32 prevLimit.utilization ≥ 50)
      && decide (f64AsU32 limit.utilization < f64AsU32 prevLimit.utilization - 40)) = true
  · rw [hunfold, if_pos hcond]
    refine ⟨hcond.symm, ?_, ?_⟩
    · intro _
      simp only [List.foldl]
      refine ⟨?_, ?_, ?_, ?_⟩
      · simp [clearThreshold_warnings, clearResetWarning_sent]
      · intro t2 ht2
        simp only [clearThreshold_sent]
        rcases ht2 with rfl | rfl | rfl | rfl <;> simp
      · intro a2 l2 t2 hne
        have hv : ∀ v : ℕ, (v = 50 ∨ v = 75 ∨ v = 90 ∨ v = 100) →
            ¬ ((a2, l2, t2) = (accountId, limit.id, v)) := by
          intro v hvv hx
          rw [Prod.mk.injEq, Prod.mk.injEq] at hx
          exact hne ⟨hx.1, hx.2.1, hx.2.2 ▸ hvv⟩
        simp only [clearThreshold_sent]
        rw [if_neg (hv 100 (by tauto)), if_neg (hv 90 (by tauto)),
          if_neg (hv 75 (by tauto)), if_neg (hv 50 (by tauto))]
        exact clearResetWarning_thresholds st accountId limit.id a2 l2 t2
      · intro a2 l2 hne
        simp only [List.foldl, clearThreshold_warnings, clearResetWarning_sent]
        rw [if_neg]
        intro hx
        rw [Prod.mk.injEq] at hx
        exact hne hx
    · intro hfired
      simp at hfired
  · rw [hunfold, if_neg hcond]
    have hfalse : (decide (f64AsU32 prevLimit.utilization ≥ 50)
        && decide (f64AsU32 limit.utilization < f64AsU32 prevLimit.utilization - 40))
        = false := by
      exact Bool.not_eq_true _ ▸ Bool.eq_false_iff.mpr hcond
    refine ⟨hfalse.symm, ?_, fun _ => rfl⟩
    intro hfired
    simp at hfired

/-- C2 counterexample: previous percent 90, current percent 50. The
claim's boundary condition holds (90 ≥ 50 and 50 ≤ 90 − 40), but the
code compares with a strict less-than (50 < 50 fails), so no reset alert
fires. -/
theorem C2_counterexample :
    f64AsU32 (90 : ℚ) ≥ 50
  ∧ f64AsU32 wLimit50.utilization ≤ f64AsU32 (90 : ℚ) - 40
  ∧ (checkResetNotification NotificationState.initial "A" wLimit50 (some wPrev90)).2
      = false :=
  ⟨by decide, by decide, by decide⟩

/-- C2 witness: previous percent 90, current percent 10: the reset alert
fires and the imminent-reset flag for the limit is cleared. -/
theorem C2_witness :
    (checkResetNotification NotificationState.initial "A" wLimit10 (some wPrev90)).2 = true
  ∧ (checkResetNotification NotificationState.initial "A" wLimit10
      (some wPrev90)).1.sentResetWarnings "A" "five_hour" = false := by
  have h := C2_reset_detection NotificationState.initial "A" wLimit10 wPrev90
    { id := "five_hour", label := "Current session", utilization := 90,
      resetsAt := 4000, category := none } (by decide)
  have hf : (checkResetNotification NotificationState.initial "A" wLimit10
      (some wPrev90)).2 = true := by
    rw [h.1]; decide
  exact ⟨hf, (h.2.1 hf).1⟩

/-- When send_notification reports no delivery, the threshold loop never
marks anything: the state comes back unchanged and every logged alert is
undelivered. -/
theorem thresholdLoop_no_delivery (settings : AppSettings) (nowLocal : ℕ) (showOk : Bool)
    (accountId limitId : String) (currentPercent : ℕ)
    (hsend : sendNotification settings nowLocal showOk = false) :
    ∀ (ts : List ℕ) (st : NotificationState),
      (thresholdLoop settings nowLocal showOk accountId limitId currentPercent ts st).1 = st
      ∧ ∀ al ∈ (thresholdLoop settings nowLocal showOk accountId limitId
          currentPercent ts st).2, al.delivered = false := by
  intro ts
  induction ts with
  | nil => intro st; exact ⟨rfl, by intro al h; simp [thresholdLoop] at h⟩
  | cons t ts ih =>
    intro st
    by_cases hc : (decide (currentPercent ≥ t)
        && !(st.wasThresholdNotified accountId limitId t)) = true
    · have hstep : thresholdLoop settings nowLocal showOk accountId limitId
          currentPercent (t :: ts) st
          = ((thresholdLoop settings nowLocal showOk accountId limitId
              currentPercent ts st).1,
             ⟨t, false⟩ :: (thresholdLoop settings nowLocal showOk accountId limitId
              currentPercent ts st).2) := by
        simp only [thresholdLoop, hc, if_true, hsend, Bool.false_eq_true, if_false]
      rw [hstep]
      refine ⟨(ih st).1, ?_⟩
      intro al hal
      rcases List.mem_cons.mp hal with rfl | h
      · rfl
      · exact (ih st).2 al h
    · have hstep : thresholdLoop settings nowLocal showOk accountId limitId
          currentPercent (t :: ts) st
          = thresholdLoop settings nowLocal showOk accountId limitId
              currentPercent ts st := by
        simp only [thresholdLoop, hc, Bool.false_eq_true, if_false]
      rw [hstep]
      exact ih st

/-- C9: when the current local time lies inside the configured DND window
(the [start, end) window, read as spanning midnight when start > end),
send_notification suppresses delivery, the threshold check leaves the
sent-flags untouched (no alert is marked sent, every logged alert is
undelivered), and the imminent-reset check neither marks nor sends. -/
theorem C9_dnd_suppression (settings : AppSettings) (nowLocal : ℕ) (showOk : Bool)
    (st : NotificationState) (accountId : String) (limit : UsageLimit) (nowUtc : ℤ)
    (s e : ℕ)
    (hen : settings.notifications.dndEnabled = true)
    (hs : settings.notifications.dndStartTime = some s)
    (he : settings.notifications.dndEndTime = some e)
    (hwin : (e < s ∧ (s ≤ nowLocal ∨ nowLocal < e)) ∨ (¬ e < s ∧ s ≤ nowLocal ∧ nowLocal < e)) :
    sendNotification settings nowLocal showOk = false
  ∧ (checkThresholdNotifications settings nowLocal showOk st accountId limit).1 = st
  ∧ (∀ al ∈ (checkThresholdNotifications settings nowLocal showOk st accountId limit).2,
      al.delivered = false)
  ∧ (checkUpcomingReset settings nowLocal showOk nowUtc st accountId limit).1 = st
  ∧ (checkUpcomingReset settings nowLocal showOk nowUtc st accountId limit).2 = false := by
  have hdnd : isDndActive settings.notifications nowLocal = true := by
    simp only [isDndActive, hen, hs, he, Bool.not_true, Bool.false_eq_true, if_false]
    rcases hwin with ⟨hlt, hcase⟩ | ⟨hge, h1, h2⟩
    · rw [if_pos hlt]
      rcases hcase with h | h <;> simp [h]
    · rw [if_neg hge]
      simp [h1, h2]
  have hsend : sendNotification settings nowLocal showOk = false := by
    simp [sendNotification, hdnd]
  have hloop := thresholdLoop_no_delivery settings nowLocal showOk accountId limit.id
    (f64AsU32 limit.utilization) hsend settings.notifications.thresholds st
  refine ⟨hsend, hloop.1, hloop.2, ?_, ?_⟩
  · unfold checkUpcomingReset
    rw [hsend]
    split
    · rfl
    · simp
  · unfold checkUpcomingReset
    rw [hsend]
    split
    · rfl
    · simp

/-- C9 witness: DND from 22:00 to 08:00 (spanning midnight) at local time
23:00 suppresses delivery and leaves the state untouched. -/
theorem C9_witness :
    sendNotification wDndSettings 1380 true = false
  ∧ (checkThresholdNotifications wDndSettings 1380 true NotificationState.initial
      "A" wLimit80).1 = NotificationState.initial
  ∧ (checkUpcomingReset wDndSettings 1380 true 3000 NotificationState.initial
      "A" wLimit80).2 = false := by
  have h := C9_dnd_suppression wDndSettings 1380 true NotificationState.initial
    "A" wLimit80 3000 1320 480 (by decide) (by decide) (by decide)
    (Or.inl ⟨by decide, Or.inl (by decide)⟩)
  exact ⟨h.1, h.2.1, h.2.2.2.2⟩

/-- One gate step preserves the ownership invariant. -/
theorem gateStep_preserves_inv (s : GateSystem) (i : ℕ) (h : gateInv s) :
    gateInv (gateStep s i) := by
  intro j
  cases hpc : s.pcs i with
  | start =>
    cases how : s.owner with
    | none =>
      simp only [gateStep, hpc, how]
      by_cases hj : j = i
      · subst hj
        simp
      · simp only [if_neg hj]
        constructor
        · intro hmem
          have hq := (h j).mp hmem
          rw [how] at hq
          simp at hq
        · intro hq
          have hq2 : (some i : Option ℕ) = some j := hq
          exact absurd (Option.some.inj hq2) (fun hh => hj hh.symm)
    | some k =>
      simp only [gateStep, hpc, how]
      by_cases hj : j = i
      · subst hj
        simp only [if_pos rfl]
        constructor
        · intro hmem
          simp at hmem
        · intro hq
          rw [← how] at hq
          have hmem := (h j).mpr hq
          rw [hpc] at hmem
          simp at hmem
      · simp only [if_neg hj]
        rw [← how]
        exact h j
  | held =>
    have hown : s.owner = some i := (h i).mp (Or.inl hpc)
    simp only [gateStep, hpc]
    by_cases hj : j = i
    · subst hj
      simp
    · simp only [if_neg hj]
      constructor
      · intro hmem
        have hq := (h j).mp hmem
        rw [hown] at hq
        exact absurd (Option.some.inj hq) (fun hh => hj hh.symm)
      · intro hq
        have hq2 : (none : Option ℕ) = some j := hq
        simp at hq2
  | released =>
    cases how : s.owner with
    | none =>
      simp only [gateStep, hpc, how]
      by_cases hj : j = i
      · subst hj
        simp
      · simp only [if_neg hj]
        constructor
        · intro hmem
          have hq := (h j).mp hmem
          rw [how] at hq
          simp at hq
        · intro hq
          have hq2 : (some i : Option ℕ) = some j := hq
          exact absurd (Option.some.inj hq2) (fun hh => hj hh.symm)
    | some k =>
      simp only [gateStep, hpc, how]
      exact how ▸ h j
  | body =>
    have hown : s.owner = some i := (h i).mp (Or.inr hpc)
    simp only [gateStep, hpc]
    by_cases hj : j = i
    · subst hj
      simp
    · simp only [if_neg hj]
      constructor
      · intro hmem
        have hq := (h j).mp hmem
        rw [hown] at hq
        exact absurd (Option.some.inj hq) (fun hh => hj hh.symm)
      · intro hq
        have hq2 : (none : Option ℕ) = some j := hq
        simp at hq2
  | done =>
    simp only [gateStep, hpc]
    exact h j
  | skipped =>
    simp only [gateStep, hpc]
    exact h j

/-- The ownership invariant holds after any interleaving schedule. -/
theorem gateRun_inv (sched : List ℕ) : gateInv (gateRun sched) := by
  have hgen : ∀ (l : List ℕ) (s : GateSystem), gateInv s → gateInv (l.foldl gateStep s) := by
    intro l
    induction l with
    | nil => intro s hs; exact hs
    | cons x xs ih => intro s hs; exact ih _ (gateStep_preserves_inv s x hs)
  have hinit : gateInv gateInit := by
    intro i
    simp [gateInit]
  exact hgen sched gateInit hinit

/-- C10 amended: the fetch body is mutually exclusive — under any
interleaving at most one task is ever inside the fetch body — and a
trigger whose try_lock runs while the gate is held is skipped; but (see
the counterexample) a trigger that passes try_lock during another task's
drop/re-acquire window waits on the blocking lock().await and is queued
rather than dropped. -/
theorem C10_single_flight_gate (sched : List ℕ) (i j : ℕ)
    (hi : (gateRun sched).pcs i = GatePC.body)
    (hj : (gateRun sched).pcs j = GatePC.body) :
    i = j ∧ (∀ (s : GateSystem) (k m : ℕ), s.pcs k = GatePC.start → s.owner = some m →
      (gateStep s k).pcs k = GatePC.skipped) := by
  constructor
  · have h := gateRun_inv sched
    have h1 := (h i).mp (Or.inr hi)
    have h2 := (h j).mp (Or.inr hj)
    rw [h1] at h2
    simpa using h2
  · intro s k m hk hm
    simp [gateStep, hk, hm]

/-- C10 witness: the mutual-exclusion component at the schedule [0,0,0],
which drives task 0 into the fetch body. -/
theorem C10_witness :
    (gateRun [0, 0, 0]).pcs 0 = GatePC.body
  ∧ (0 : ℕ) = 0 :=
  ⟨rfl, (C10_single_flight_gate [0, 0, 0] 0 0 rfl rfl).1⟩

/-- C10 counterexample: after schedule [0,0] task 0 is mid-cycle (past
its successful try_lock, before the blocking re-acquire); a trigger for
task 1 arriving then passes try_lock instead of being skipped; after
[0,0,1,1,0] task 1 sits at the blocking lock().await while task 0 owns
the gate and its step makes no progress (a blocking wait, not a skip);
and in the full schedule both triggers run the fetch body — the second
was queued, not dropped. -/
theorem C10_counterexample :
    (gateRun [0, 0]).pcs 0 = GatePC.released
  ∧ (gateRun [0, 0]).owner = none
  ∧ (gateRun [0, 0, 1]).pcs 1 = GatePC.held
  ∧ (gateRun [0, 0, 1, 1, 0]).pcs 1 = GatePC.released
  ∧ (gateRun [0, 0, 1, 1, 0]).owner = some 0
  ∧ gateStep (gateRun [0, 0, 1, 1, 0]) 1 = gateRun [0, 0, 1, 1, 0]
  ∧ (gateRun [0, 0, 1, 1, 0, 0, 1, 1]).bodyRuns = 2
  ∧ (gateRun [0, 0, 1, 1, 0, 0, 1, 1]).pcs 0 = GatePC.done
  ∧ (gateRun [0, 0, 1, 1, 0, 0, 1, 1]).pcs 1 = GatePC.done :=
  ⟨rfl, rfl, rfl, rfl, rfl, rfl, rfl, rfl, rfl⟩

/-- The threshold loop, when send_notification reports delivery: an alert
is logged as delivered exactly for the configured thresholds that the
current percent has reached and that were not already marked, and the
final sent-set is the initial one plus exactly those marks. -/
theorem thresholdLoop_delivered_spec (settings : AppSettings) (nowLocal : ℕ)
    (showOk : Bool) (accountId limitId : String) (pct : ℕ)
    (hsend : sendNotification settings nowLocal showOk = true) :
    ∀ ts : List ℕ, ts.Nodup → ∀ st : NotificationState,
      (∀ t : ℕ,
        ThresholdAlert.mk t true
            ∈ (thresholdLoop settings nowLocal showOk accountId limitId pct ts st).2
          ↔ (t ∈ ts ∧ t ≤ pct ∧ st.sentThresholds accountId limitId t = false))
      ∧ (∀ (a2 l2 : String) (t2 : ℕ),
          (thresholdLoop settings nowLocal showOk accountId limitId
              pct ts st).1.sentThresholds a2 l2 t2 = true
            ↔ (st.sentThresholds a2 l2 t2 = true
                ∨ (a2 = accountId ∧ l2 = limitId ∧ t2 ∈ ts ∧ t2 ≤ pct
                    ∧ st.sentThresholds accountId limitId t2 = false))) := by
  intro ts
  induction ts with
  | nil =>
    intro _ st
    constructor
    · intro t
      simp [thresholdLoop]
    · intro a2 l2 t2
      simp [thresholdLoop]
  | cons t ts ih =>
    intro hnd st
    obtain ⟨ht, hnd'⟩ := List.nodup_cons.mp hnd
    by_cases hc : (decide (pct ≥ t) && !(st.wasThresholdNotified accountId limitId t)) = true
    · have hc2 := hc
      simp only [Bool.and_eq_true, decide_eq_true_eq, Bool.not_eq_true',
        NotificationState.wasThresholdNotified, ge_iff_le] at hc2
      obtain ⟨hpct, hsf⟩ := hc2
      have hstep : thresholdLoop settings nowLocal showOk accountId limitId pct (t :: ts) st
          = ((thresholdLoop settings nowLocal showOk accountId limitId pct ts
                (st.markThresholdNotified accountId limitId t)).1,
             ⟨t, true⟩ :: (thresholdLoop settings nowLocal showOk accountId limitId pct ts
                (st.markThresholdNotified accountId limitId t)).2) := by
        simp only [thresholdLoop, hc, if_true, hsend, if_pos]
      have ihs := ih hnd' (st.markThresholdNotified accountId limitId t)
      have hmark_other : ∀ t2 : ℕ, t2 ≠ t →
          (st.markThresholdNotified accountId limitId t).sentThresholds accountId limitId t2
            = st.sentThresholds accountId limitId t2 := by
        intro t2 hne
        rw [markThresholdNotified_sent, if_neg]
        intro hx
        rw [Prod.mk.injEq, Prod.mk.injEq] at hx
        exact hne hx.2.2
      constructor
      · intro t0
        rw [hstep]
        simp only [List.mem_cons, ThresholdAlert.mk.injEq]
        constructor
        · intro hmem
          rcases hmem with ⟨rfl, _⟩ | hmem
          · exact ⟨Or.inl rfl, hpct, hsf⟩
          · obtain ⟨hm, hle, hfalse⟩ := (ihs.1 t0).mp hmem
            have hne : t0 ≠ t := fun hh => ht (hh ▸ hm)
            rw [hmark_other t0 hne] at hfalse
            exact ⟨Or.inr hm, hle, hfalse⟩
        · rintro ⟨hm | hm, hle, hfalse⟩
          · exact Or.inl ⟨hm, trivial⟩
          · refine Or.inr ((ihs.1 t0).mpr ⟨hm, hle, ?_⟩)
            have hne : t0 ≠ t := fun hh => ht (hh ▸ hm)
            rw [hmark_other t0 hne]
            exact hfalse
      · intro a2 l2 t2
        rw [hstep]
        rw [ihs.2 a2 l2 t2]
        by_cases hkey : (a2, l2, t2) = (accountId, limitId, t)
        · rw [Prod.mk.injEq, Prod.mk.injEq] at hkey
          obtain ⟨rfl, rfl, rfl⟩ := hkey
          constructor
          · intro _
            exact Or.inr ⟨rfl, rfl, List.mem_cons_self t2 ts, hpct, hsf⟩
          · intro _
            exact Or.inl (by rw [markThresholdNotified_sent, if_pos rfl])
        · have hm2 : (st.markThresholdNotified accountId limitId t).sentThresholds a2 l2 t2
              = st.sentThresholds a2 l2 t2 := by
            rw [markThresholdNotified_sent, if_neg hkey]
          rw [hm2]
          constructor
          · rintro (hold | ⟨ha, hl, hm, hle, hfalse⟩)
            · exact Or.inl hold
            · have hne : t2 ≠ t := fun hh => ht (hh ▸ hm)
              rw [hmark_other t2 hne] at hfalse
              exact Or.inr ⟨ha, hl, List.mem_cons_of_mem t hm, hle, hfalse⟩
          · rintro (hold | ⟨ha, hl, hm, hle, hfalse⟩)
            · exact Or.inl hold
            · rcases List.mem_cons.mp hm with rfl | hm2
              · exact absurd (by rw [Prod.mk.injEq, Prod.mk.injEq]; exact ⟨ha, hl, rfl⟩) hkey
              · have hne : t2 ≠ t := fun hh => ht (hh ▸ hm2)
                refine Or.inr ⟨ha, hl, hm2, hle, ?_⟩
                rw [hmark_other t2 hne]
                exact hfalse
    · have hcf : (decide (pct ≥ t) && !(st.wasThresholdNotified accountId limitId t))
          = false := Bool.eq_false_iff.mpr hc
      have hblock : ¬ (t ≤ pct ∧ st.sentThresholds accountId limitId t = false) := by
        intro ⟨h1, h2⟩
        apply hc
        simp [NotificationState.wasThresholdNotified, h1, h2]
      have hstep : thresholdLoop settings nowLocal showOk accountId limitId pct (t :: ts) st
          = thresholdLoop settings nowLocal showOk accountId limitId pct ts st := by
        simp only [thresholdLoop, hcf, Bool.false_eq_true, if_false]
      have ihs := ih hnd' st
      constructor
      · intro t0
        rw [hstep, ihs.1 t0]
        constructor
        · rintro ⟨hm, hle, hfalse⟩
          exact ⟨List.mem_cons_of_mem t hm, hle, hfalse⟩
        · rintro ⟨hm, hle, hfalse⟩
          rcases List.mem_cons.mp hm with rfl | hm2
          · exact absurd ⟨hle, hfalse⟩ hblock
          · exact ⟨hm2, hle, hfalse⟩
      · intro a2 l2 t2
        rw [hstep, ihs.2 a2 l2 t2]
        constructor
        · rintro (hold | ⟨ha, hl, hm, hle, hfalse⟩)
          · exact Or.inl hold
          · exact Or.inr ⟨ha, hl, List.mem_cons_of_mem t hm, hle, hfalse⟩
        · rintro (hold | ⟨ha, hl, hm, hle, hfalse⟩)
          · exact Or.inl hold
          · rcases List.mem_cons.mp hm with rfl | hm2
            · exact absurd ⟨hle, hfalse⟩ hblock
            · exact Or.inr ⟨ha, hl, hm2, hle, hfalse⟩

/-- C7: with delivery succeeding and distinct configured thresholds, a
threshold alert is emitted (logged delivered) exactly for the thresholds
t with current percent ≥ t that are not already marked sent for
(account, limit, t); the updated sent-set is the old one plus exactly
those emissions; and clear_thresholds_above clears exactly the sent-flags
of this account and limit with threshold strictly greater than the given
percent, leaving every other flag as it was. -/
theorem C7_threshold_alerts (settings : AppSettings) (nowLocal : ℕ) (showOk : Bool)
    (st : NotificationState) (accountId : String) (limit : UsageLimit) (x : ℕ)
    (hsend : sendNotification settings nowLocal showOk = true)
    (hnd : settings.notifications.thresholds.Nodup) :
    (∀ t : ℕ,
      ThresholdAlert.mk t true
          ∈ (checkThresholdNotifications settings nowLocal showOk st accountId limit).2
        ↔ (t ∈ settings.notifications.thresholds ∧ t ≤ f64AsU32 limit.utilization
            ∧ st.sentThresholds accountId limit.id t = false))
  ∧ (∀ (a2 l2 : String) (t2 : ℕ),
      (checkThresholdNotifications settings nowLocal showOk st accountId
          limit).1.sentThresholds a2 l2 t2 = true
        ↔ (st.sentThresholds a2 l2 t2 = true
            ∨ (a2 = accountId ∧ l2 = limit.id
                ∧ t2 ∈ settings.notifications.thresholds
                ∧ t2 ≤ f64AsU32 limit.utilization
                ∧ st.sentThresholds accountId limit.id t2 = false)))
  ∧ (∀ (a2 l2 : String) (t2 : ℕ),
      (st.clearThresholdsAbove accountId limit.id x).sentThresholds a2 l2 t2 = true
        ↔ (st.sentThresholds a2 l2 t2 = true
            ∧ ¬(a2 = accountId ∧ l2 = limit.id ∧ x < t2))) := by
  have hspec := thresholdLoop_delivered_spec settings nowLocal showOk accountId limit.id
    (f64AsU32 limit.utilization) hsend settings.notifications.thresholds hnd st
  refine ⟨hspec.1, hspec.2, ?_⟩
  intro a2 l2 t2
  simp only [NotificationState.clearThresholdsAbove, Bool.and_eq_true,
    Bool.not_eq_true', Bool.and_eq_false_iff, beq_iff_eq, beq_eq_false_iff_ne,
    decide_eq_true_eq, decide_eq_false_iff_not, not_lt, gt_iff_lt]
  constructor
  · rintro ⟨hsent, hrest⟩
    refine ⟨hsent, ?_⟩
    rintro ⟨rfl, rfl, hx⟩
    rcases hrest with h | h
    · rcases h with h | h
      · exact h rfl
      · exact h rfl
    · exact absurd hx (not_lt.mpr h)
  · rintro ⟨hsent, hni⟩
    refine ⟨hsent, ?_⟩
    by_cases ha : a2 = accountId
    · by_cases hl : l2 = limit.id
      · subst ha
        subst hl
        right
        exact not_lt.mp (fun hx => hni ⟨rfl, rfl, hx⟩)
      · exact Or.inl (Or.inr hl)
    · exact Or.inl (Or.inl ha)

/-- C7 witness: thresholds {50,75,90} at 80%: the 75 alert is delivered
from a clean state (as is 50, not 90), exercising the characterization. -/
theorem C7_witness :
    ThresholdAlert.mk 75 true
      ∈ (checkThresholdNotifications defaultAppSettings 720 true
          NotificationState.initial "A" wLimit80).2 :=
  ((C7_threshold_alerts defaultAppSettings 720 true NotificationState.initial
      "A" wLimit80 60 (by decide) (by decide)).1 75).mpr (by decide)

/-- The query issued by get_stats (provider and date range only) reduces
to sorting the matching entries and taking the first 1000. -/
theorem statsQuery_eq (entries : List UsageHistoryEntry) (p : String) (s e : ℤ) :
    queryHistory entries
      { provider := some p, accountId := none, startDate := some s,
        endDate := some e, limit := none, offset := none }
      = ((matchingEntries entries p s e).mergeSort
          (fun a b => decide (b.timestamp ≤ a.timestamp))).take 1000 := by
  have hfl : ((entries.filter (fun x => x.provider == p)).filter
        (fun x => decide (s ≤ x.timestamp))).filter
        (fun x => decide (x.timestamp ≤ e))
      = matchingEntries entries p s e := by
    unfold matchingEntries
    rw [List.filter_filter, List.filter_filter]
    apply List.filter_congr
    intro x _
    cases hp : (x.provider == p) <;> cases hs : (decide (s ≤ x.timestamp)) <;>
      cases he : (decide (x.timestamp ≤ e)) <;> simp [hp, hs, he]
  simp only [queryHistory]
  rw [hfl]
  rfl

/-- The left fold of max lands on one of the folded values. -/
theorem foldl_max_mem (l : List ℚ) (a : ℚ) : l.foldl max a ∈ a :: l := by
  induction l generalizing a with
  | nil => simp
  | cons x xs ih =>
    rw [List.foldl_cons]
    rcases List.mem_cons.mp (ih (max a x)) with hh | hh
    · rcases max_choice a x with hc | hc
      · rw [hh, hc]; exact List.mem_cons_self _ _
      · rw [hh, hc]; exact List.mem_cons_of_mem a (List.mem_cons_self _ _)
    · exact List.mem_cons_of_mem a (List.mem_cons_of_mem x hh)

/-- The left fold of max bounds every folded value from above. -/
theorem le_foldl_max (l : List ℚ) (a : ℚ) : ∀ y ∈ a :: l, y ≤ l.foldl max a := by
  induction l generalizing a with
  | nil =>
    intro y hy
    rcases List.mem_cons.mp hy with rfl | h
    · simp
    · simp at h
  | cons x xs ih =>
    intro y hy
    rw [List.foldl_cons]
    rcases List.mem_cons.mp hy with rfl | hy2
    · exact le_trans (le_max_left y x) (ih (max y x) _ (List.mem_cons_self _ _))
    · rcases List.mem_cons.mp hy2 with rfl | hy3
      · exact le_trans (le_max_right a y) (ih (max a y) _ (List.mem_cons_self _ _))
      · exact ih (max a x) y (List.mem_cons_of_mem _ hy3)

/-- The left fold of min lands on one of the folded values. -/
theorem foldl_min_mem (l : List ℚ) (a : ℚ) : l.foldl min a ∈ a :: l := by
  induction l generalizing a with
  | nil => simp
  | cons x xs ih =>
    rw [List.foldl_cons]
    rcases List.mem_cons.mp (ih (min a x)) with hh | hh
    · rcases min_choice a x with hc | hc
      · rw [hh, hc]; exact List.mem_cons_self _ _
      · rw [hh, hc]; exact List.mem_cons_of_mem a (List.mem_cons_self _ _)
    · exact List.mem_cons_of_mem a (List.mem_cons_of_mem x hh)

/-- The left fold of min bounds every folded value from below. -/
theorem foldl_min_le (l : List ℚ) (a : ℚ) : ∀ y ∈ a :: l, l.foldl min a ≤ y := by
  induction l generalizing a with
  | nil =>
    intro y hy
    rcases List.mem_cons.mp hy with rfl | h
    · simp
    · simp at h
  | cons x xs ih =>
    intro y hy
    rw [List.foldl_cons]
    rcases List.mem_cons.mp hy with rfl | hy2
    · exact le_trans (ih (min y x) _ (List.mem_cons_self _ _)) (min_le_left y x)
    · rcases List.mem_cons.mp hy2 with rfl | hy3
      · exact le_trans (ih (min a y) _ (List.mem_cons_self _ _)) (min_le_right a y)
      · exact ih (min a x) y (List.mem_cons_of_mem _ hy3)


/-- get_stats returns the no-data result when its utilization list is empty. -/
theorem getStats_eq_none (entries : List UsageHistoryEntry)
    (provider limitId : String) (startD endD : ℤ)
    (h : statsUtilList entries provider limitId startD endD = []) :
    getStats entries provider limitId startD endD = none := by
  unfold statsUtilList at h
  simp only [getStats]
  rw [h]

/-- get_stats on a nonempty utilization list returns the aggregates of
that list. -/
theorem getStats_eq_some (entries : List UsageHistoryEntry)
    (provider limitId : String) (startD endD : ℤ) (u : ℚ) (us : List ℚ)
    (h : statsUtilList entries provider limitId startD endD = u :: us) :
    getStats entries provider limitId startD endD
      = some { provider := provider, limitId := limitId, periodStart := startD,
               periodEnd := endD,
               avgUtilization := (u :: us).sum / ((u :: us).length : ℚ),
               maxUtilization := us.foldl max u,
               minUtilization := us.foldl min u,
               sampleCount := (u :: us).length } := by
  unfold statsUtilList at h
  simp only [getStats]
  rw [h]

/-- C4 amended: provided at most 1000 entries match the provider/date
filters (query's default cap, which get_stats inherits), get_stats
returns the no-data result exactly when no reading matches, and otherwise
an aggregate whose sample count, average, maximum and minimum are those
of all matching readings; without that bound the aggregates cover only
the readings of the 1000 newest matching entries. -/
theorem C4_stats_aggregates (entries : List UsageHistoryEntry)
    (provider limitId : String) (startD endD : ℤ)
    (hcap : (matchingEntries entries provider startD endD).length ≤ 1000) :
    (getStats entries provider limitId startD endD = none
      ↔ allMatchingUtilizations entries provider limitId startD endD = [])
  ∧ (∀ stats : UsageStats, getStats entries provider limitId startD endD = some stats →
      stats.sampleCount
          = (allMatchingUtilizations entries provider limitId startD endD).length
      ∧ stats.avgUtilization
            * ((allMatchingUtilizations entries provider limitId startD endD).length : ℚ)
          = (allMatchingUtilizations entries provider limitId startD endD).sum
      ∧ stats.maxUtilization ∈ allMatchingUtilizations entries provider limitId startD endD
      ∧ (∀ v ∈ allMatchingUtilizations entries provider limitId startD endD,
          v ≤ stats.maxUtilization)
      ∧ stats.minUtilization ∈ allMatchingUtilizations entries provider limitId startD endD
      ∧ (∀ v ∈ allMatchingUtilizations entries provider limitId startD endD,
          stats.minUtilization ≤ v)) := by
  have hq : queryHistory entries
      { provider := some provider, accountId := none, startDate := some startD,
        endDate := some endD, limit := none, offset := none }
      = (matchingEntries entries provider startD endD).mergeSort
          (fun a b => decide (b.timestamp ≤ a.timestamp)) := by
    rw [statsQuery_eq]
    exact List.take_of_length_le (by rw [List.length_mergeSort]; exact hcap)
  have hperm : (statsUtilList entries provider limitId startD endD).Perm
      (allMatchingUtilizations entries provider limitId startD endD) := by
    unfold statsUtilList
    rw [hq]
    unfold allMatchingUtilizations
    apply List.Perm.map
    apply List.Perm.filter
    rw [List.flatMap_def, List.flatMap_def]
    exact List.Perm.flatten (List.Perm.map _ (List.mergeSort_perm _ _))
  rcases hlist : statsUtilList entries provider limitId startD endD with _ | ⟨u, us⟩
  · rw [hlist] at hperm
    have hall : allMatchingUtilizations entries provider limitId startD endD = [] :=
      List.perm_nil.mp hperm.symm
    have hnone := getStats_eq_none entries provider limitId startD endD hlist
    constructor
    · exact ⟨fun _ => hall, fun _ => hnone⟩
    · intro stats hstats
      rw [hnone] at hstats
      simp at hstats
  · rw [hlist] at hperm
    have hsome := getStats_eq_some entries provider limitId startD endD u us hlist
    have hlen : (u :: us).length
        = (allMatchingUtilizations entries provider limitId startD endD).length :=
      hperm.length_eq
    have hsum : (u :: us).sum
        = (allMatchingUtilizations entries provider limitId startD endD).sum :=
      hperm.sum_eq
    have hnil : allMatchingUtilizations entries provider limitId startD endD ≠ [] := by
      intro hh
      rw [hh] at hperm
      have hcontra := List.perm_nil.mp hperm
      simp at hcontra
    constructor
    · constructor
      · intro h
        rw [hsome] at h
        simp at h
      · intro h
        exact absurd h hnil
    · intro stats hstats
      rw [hsome] at hstats
      have hS := Option.some.inj hstats
      rw [← hS]
      have hne : (((u :: us).length : ℚ)) ≠ 0 := by
        rw [List.length_cons]
        push_cast
        positivity
      refine ⟨hlen, ?_, ?_, ?_, ?_, ?_⟩
      · rw [← hlen, ← hsum]
        exact div_mul_cancel₀ _ hne
      · exact hperm.mem_iff.mp (foldl_max_mem us u)
      · intro v hv
        exact le_foldl_max us u v (hperm.mem_iff.mpr hv)
      · exact hperm.mem_iff.mp (foldl_min_mem us u)
      · intro v hv
        exact foldl_min_le us u v (hperm.mem_iff.mpr hv)

/-- C4 counterexample: a store of 1001 identical matching entries. Every
one of the 1001 readings matches the provider/range/limit filters, but
get_stats reports a sample count of 1000: the aggregates are not computed
over every matching entry, because query's default limit caps the entry
list at 1000. -/
theorem C4_counterexample :
    (allMatchingUtilizations hist1001 "claude" "five_hour" 0 0).length = 1001
  ∧ (getStats hist1001 "claude" "five_hour" 0 0).map UsageStats.sampleCount
      = some 1000 := by
  have hM : matchingEntries hist1001 "claude" 0 0 = List.replicate 1001 wEntry := by
    unfold matchingEntries hist1001
    rw [List.filter_replicate, if_pos (by decide)]
  have hutil : ∀ n : ℕ, ((((List.replicate n wEntry).flatMap (fun e => e.limits)).filter
      (fun l => l.id == "five_hour")).map (fun l => l.utilization))
      = List.replicate n (42:ℚ) := by
    intro n
    induction n with
    | zero => rfl
    | succ k ih =>
      rw [List.replicate_succ, List.flatMap_cons, List.filter_append, List.map_append, ih]
      rfl
  constructor
  · unfold allMatchingUtilizations
    rw [hM, hutil 1001, List.length_replicate]
  · have hq := statsQuery_eq hist1001 "claude" 0 0
    rw [hM] at hq
    have hsorted : (List.replicate 1001 wEntry).mergeSort
        (fun a b => decide (b.timestamp ≤ a.timestamp)) = List.replicate 1001 wEntry :=
      List.mergeSort_of_sorted (List.pairwise_replicate.mpr (Or.inr (by decide)))
    rw [hsorted, List.take_replicate] at hq
    have hmin : (1000 ⊓ 1001) = 1000 := by norm_num
    rw [hmin] at hq
    have hlist : statsUtilList hist1001 "claude" "five_hour" 0 0
        = (42 : ℚ) :: List.replicate 999 42 := by
      unfold statsUtilList
      rw [hq, hutil 1000]
      rfl
    have hmap : (getStats hist1001 "claude" "five_hour" 0 0).map UsageStats.sampleCount
        = some ((42 :: List.replicate 999 (42 : ℚ)).length) := by
      rw [getStats_eq_some hist1001 "claude" "five_hour" 0 0 42 (List.replicate 999 42) hlist]
      rfl
    rw [hmap, List.length_cons, List.length_replicate]

/-- C4 witness: the amended statement at a one-entry store with one
matching reading: a result is returned (not the no-data result). -/
theorem C4_witness :
    getStats [wEntry] "claude" "five_hour" 0 0 ≠ none := by
  have h := C4_stats_aggregates [wEntry] "claude" "five_hour" 0 0 (by decide)
  intro hn
  have hall := h.1.mp hn
  have hone : allMatchingUtilizations [wEntry] "claude" "five_hour" 0 0 = [(42 : ℚ)] := by
    decide
  rw [hone] at hall
  simp at hall
